import Mathlib

/-!
Formal model of log4go's `PanicFileLogWriter` (source file `paniclog.go`).

The Go source is embedded shallowly:
* pure computations (`prepare`'s policy switch, `LogWrite`'s overflow test,
  `SetFormat`) become Lean functions;
* operating-system effects (`filepath.Abs`, `os.Stat`, `os.OpenFile`,
  `syscall.Dup2`, writes, `os.Stderr`) are represented by an `Env` of oracles
  plus an explicit trace of `Event`s emitted in program order;
* the background goroutine of `run` becomes the function `runLoop`, which
  consumes the channel contents (modelled as a list of messages delivered
  before the channel is closed) and returns the writer state together with
  the event trace;
* machinery that lives in the wider log4go framework but not in this source
  file (`LogRecord`, `FormatLogRecord`, the `LogCloser` drain protocol, the
  globals `LogWithBlocking` / `LogBufferLength`) is modelled from the spec,
  as marked on each definition.
-/

namespace Log4go

/-- Modelled from the spec: a log record is an external entity carrying a
timestamp, a severity level, a source tag, a free-text message and an optional
raw binary payload (`LogRecord` is defined outside `paniclog.go`). -/
structure LogRecord where
  created : Int
  level : Nat
  source : String
  message : String
  binary : Option (List Nat)
deriving DecidableEq, Repr

/-- Modelled from the spec: a message travelling on the writer's channel is
either an ordinary record or the drain sentinel that `LogCloser.WaitForEnd`
sends through the same ordered queue (the `LogCloser` type is outside
`paniclog.go`). -/
inductive Msg where
  | record (r : LogRecord)
  | endSignal
deriving DecidableEq, Repr

/-- A chunk of data appended to the log file: raw bytes for a binary record,
rendered text otherwise. -/
inductive Chunk where
  | bytes (bs : List Nat)
  | text (s : String)
deriving DecidableEq, Repr

/-- Observable effects of the writer, recorded in program order. `fd2Line`
is a line printed via `os.Stderr`, i.e. written to file descriptor 2;
whether that descriptor still designates the process's original standard
error stream depends on the `dup2` events emitted earlier in the trace
(`intRotate`'s `Dup2(fd, 2)` makes descriptor 2 an alias of the log file). -/
inductive Event where
  | openCall (path : String) (flags : List String) (mode : Nat)
  | dup2 (target : Nat)
  | fileWrite (c : Chunk)
  | fileClose
  | fd2Line (s : String)
deriving DecidableEq, Repr

/-- Oracles for the operating-system facts the writer consults. -/
structure Env where
  absPath : String → Except String String
  openErr : String → Option String
  modTime : String → Option Int
  now : Int
  loggerMode : String

/-- The writer state, mirroring the fields of Go's `PanicFileLogWriter`
struct (the channel itself, the `*os.File` handle and the compiled regexp are
represented by the message lists fed to `runLoop`, the `fileOpen` flag and the
`regRule` source string respectively). -/
structure PanicFileLogWriter where
  filename : String
  baseFilename : String
  format : String
  whenUnit : String
  backupCount : Int
  interval : Int
  suffix : String
  regRule : String
  rolloverAt : Int
  firstRollover : Bool
  fileOpen : Bool
deriving DecidableEq, Repr

/-- Go's `strings.ToUpper` as used on the rotation unit (ASCII on every
recognized unit), written over the character list so that it evaluates by
kernel reduction. -/
def strToUpper (s : String) : String := String.mk (s.data.map Char.toUpper)

/-- The regexp source for the minute policy, literally from `prepare`. -/
def minuteRegRule : String := "^\\d{4}-\\d{2}-\\d{2}_\\d{2}-\\d{2}$"

/-- The regexp source for the hour policy, literally from `prepare`. -/
def hourRegRule : String := "^\\d{10}$"

/-- The regexp source for the day / midnight / default policy, literally from
`prepare`. -/
def dayRegRule : String := "^\\d{4}-\\d{2}-\\d{2}$"

/-- The triple set by `prepare`'s `switch` statement. -/
structure RotationPolicy where
  interval : Int
  suffix : String
  regRule : String
deriving DecidableEq, Repr

/-- The `switch w.when` of `prepare` (paniclog.go lines 64-82): interval,
suffix and filter pattern per rotation unit, with `D`/`MIDNIGHT` and the
default branch both yielding the daily policy. -/
def preparePolicy (whenUnit : String) : RotationPolicy :=
  if whenUnit = "M" then
    { interval := 60, suffix := "%Y-%m-%d_%H-%M", regRule := minuteRegRule }
  else if whenUnit = "H" then
    { interval := 60 * 60, suffix := "%Y%m%d%H", regRule := hourRegRule }
  else if whenUnit = "D" ∨ whenUnit = "MIDNIGHT" then
    { interval := 60 * 60 * 24, suffix := "%Y-%m-%d", regRule := dayRegRule }
  else
    { interval := 60 * 60 * 24, suffix := "%Y-%m-%d", regRule := dayRegRule }

/-- The reference time of `prepare` (lines 85-92): the file's modification
time when `os.Stat` succeeds, the current time otherwise. -/
def referenceTime (env : Env) (w : PanicFileLogWriter) : Int :=
  match env.modTime w.filename with
  | some mt => mt
  | none => env.now

/-- `prepare` (lines 61-96): installs the rotation policy and the initial
rollover deadline `(t.Unix()/w.interval + 1) * w.interval`; Go's integer
division on `int64` truncates toward zero, hence `Int.tdiv`. -/
def prepare (env : Env) (w : PanicFileLogWriter) : PanicFileLogWriter :=
  let p := preparePolicy w.whenUnit
  let t := referenceTime env w
  { w with
    interval := p.interval
    suffix := p.suffix
    regRule := p.regRule
    firstRollover := true
    rolloverAt := (Int.tdiv t p.interval + 1) * p.interval }

/-- The flag set `os.O_WRONLY|os.O_APPEND|os.O_CREATE` passed by `intRotate`. -/
def openFlags : List String := ["O_WRONLY", "O_APPEND", "O_CREATE"]

/-- `intRotate` (lines 187-203): close the current handle if any, reopen the
target path for append with mode `0644`, and unless `LOGGER_MODE` is `debug`
duplicate the file descriptor onto descriptors 1 and 2. -/
def intRotate (env : Env) (w : PanicFileLogWriter) :
    Except String PanicFileLogWriter × List Event :=
  let closeEvts := if w.fileOpen then [Event.fileClose] else []
  match env.openErr w.filename with
  | some e => (Except.error e, closeEvts ++ [Event.openCall w.filename openFlags 0o644])
  | none =>
    let dupEvts := if env.loggerMode = "debug" then [] else [Event.dup2 1, Event.dup2 2]
    (Except.ok { w with fileOpen := true },
     closeEvts ++ [Event.openCall w.filename openFlags 0o644] ++ dupEvts)

/-- The `fmt.Fprintf(os.Stderr, "FileLogWriter(%q): %s\n", ...)` error line. -/
def fileLogWriterTag (fname err : String) : String :=
  "FileLogWriter(\"" ++ fname ++ "\"): " ++ err ++ "\n"

/-- The construction part of `run` (lines 130-149): resolve the absolute
path, call `prepare`, open the file via `intRotate`; each failure is printed
to standard error and yields `none` instead of a usable writer. -/
def runConstruct (env : Env) (w : PanicFileLogWriter) :
    Option PanicFileLogWriter × List Event :=
  match env.absPath w.filename with
  | Except.error e => (none, [Event.fd2Line (fileLogWriterTag w.filename e)])
  | Except.ok path =>
    let w2 := prepare env { w with baseFilename := path }
    match intRotate env w2 with
    | (Except.error e, evts) =>
        (none, evts ++ [Event.fd2Line (fileLogWriterTag w.filename e)])
    | (Except.ok w3, evts) => (some w3, evts)

/-- The format template installed by `NewPanicFileLogWriter`. -/
def defaultFormat : String := "[%D %T] [%L] (%S) %M"

/-- `NewPanicFileLogWriter` (lines 115-127): upper-case the unit, build the
initial struct (Go zero values for the fields `run`/`prepare` will fill) and
run the construction sequence. -/
def NewPanicFileLogWriter (env : Env) (fname whenUnit : String) (backupCount : Int) :
    Option PanicFileLogWriter × List Event :=
  runConstruct env
    { filename := fname
      baseFilename := ""
      format := defaultFormat
      whenUnit := strToUpper whenUnit
      backupCount := backupCount
      interval := 0
      suffix := ""
      regRule := ""
      rolloverAt := 0
      firstRollover := false
      fileOpen := false }

/-- `LogWrite` (lines 40-52) acting on the channel contents: when
`LogWithBlocking` is false and the channel already holds at least
`LogBufferLength` records the record is dropped, otherwise it is enqueued
(the blocking send always delivers; the caller merely suspends).
`logWithBlocking` and `logBufferLength` model the framework globals, which
live outside `paniclog.go`. -/
def LogWrite (logWithBlocking : Bool) (logBufferLength : Nat)
    (queue : List Msg) (r : LogRecord) : List Msg :=
  if logWithBlocking = false ∧ logBufferLength ≤ queue.length then queue
  else queue ++ [Msg.record r]

/-- Modelled from the spec: `Close` (lines 55-58) calls
`LogCloser.WaitForEnd`, which is outside `paniclog.go`; per the spec the
drain request is delivered through the same ordered queue as the records, so
closing appends the drain sentinel to the pending messages (the subsequent
`close(w.rec)` ends the message list). -/
def Close (queue : List Msg) : List Msg := queue ++ [Msg.endSignal]

/-- Modelled from the spec: placeholder rendering of the date token `%D`
(performed by the framework outside `paniclog.go`). -/
def dateString (t : Int) : String := "D" ++ toString t

/-- Modelled from the spec: placeholder rendering of the time token `%T`. -/
def timeString (t : Int) : String := "T" ++ toString t

/-- Modelled from the spec: placeholder rendering of the level token `%L`. -/
def levelString (l : Nat) : String := "L" ++ toString l

/-- Modelled from the spec: the framework's `FormatLogRecord` applies a text
template with placeholder tokens for date (`%D`), time (`%T`), level (`%L`),
source tag (`%S`) and message (`%M`) to a record (the function itself is
outside `paniclog.go`). -/
def formatScan (r : LogRecord) : List Char → List Char
  | [] => []
  | '%' :: c :: rest =>
    (if c = 'M' then r.message.data
     else if c = 'L' then (levelString r.level).data
     else if c = 'S' then r.source.data
     else if c = 'D' then (dateString r.created).data
     else if c = 'T' then (timeString r.created).data
     else ['%', c]) ++ formatScan r rest
  | c :: rest => c :: formatScan r rest

/-- Modelled from the spec: render a record through a format template. -/
def formatLogRecord (fmt : String) (r : LogRecord) : String :=
  String.mk (formatScan r fmt.data)

/-- The data one loop iteration appends to the file (lines 170-175): the raw
bytes for a record with a binary payload, the rendered text otherwise. -/
def writeChunk (fmt : String) (r : LogRecord) : Chunk :=
  match r.binary with
  | some bs => Chunk.bytes bs
  | none => Chunk.text (formatLogRecord fmt r)

/-- The `defer` of the goroutine (lines 152-156): close the file handle when
one is open. -/
def deferClose (w : PanicFileLogWriter) : List Event :=
  if w.fileOpen then [Event.fileClose] else []

/-- The goroutine body of `run` (lines 158-182). `msgs` are the messages
delivered on the channel before it is closed; `writeErr k` is the outcome of
the `k`-th file write (`none` on success). An exhausted list models the
closed channel (`!ok`), the sentinel models `EndNotify` returning true, and a
write failure prints to standard error and returns; in every exit path the
deferred close runs. The loop body mutates no writer field, so the state is
threaded through unchanged. -/
def runLoop (writeErr : Nat → Option String) (w : PanicFileLogWriter) :
    Nat → List Msg → PanicFileLogWriter × List Event
  | _, [] => (w, deferClose w)
  | _, Msg.endSignal :: _ => (w, deferClose w)
  | k, Msg.record r :: rest =>
    match writeErr k with
    | none =>
      let res := runLoop writeErr w (k + 1) rest
      (res.1, Event.fileWrite (writeChunk w.format r) :: res.2)
    | some e =>
      (w, Event.fd2Line (fileLogWriterTag w.filename e) :: deferClose w)

/-- `SetFormat` (lines 207-210): replace the format template, return the
writer. -/
def SetFormat (w : PanicFileLogWriter) (fmt : String) : PanicFileLogWriter :=
  { w with format := fmt }

/-- The policy derivation as performed end to end by the constructor: the
unit string is upper-cased by `NewPanicFileLogWriter` before `prepare`
switches on it. -/
def derivePolicy (unit : String) : RotationPolicy :=
  preparePolicy (strToUpper unit)

/-- An item of the anchored regular-expression fragment used by `prepare`'s
three filter patterns: a run of exactly `n` digits (`\d{n}`, RE2's exact
repetition) or a literal character. -/
inductive RItem where
  | digits (n : Nat)
  | lit (c : Char)
deriving DecidableEq, Repr

/-- Matching of an item sequence against a whole character list, the
semantics `regexp.MatchString` gives an `^...$`-anchored pattern of this
fragment. -/
def matchItems : List RItem → List Char → Bool
  | [], cs => cs.isEmpty
  | RItem.lit _ :: _, [] => false
  | RItem.lit c :: ps, d :: cs => (d == c) && matchItems ps cs
  | RItem.digits n :: ps, cs =>
    ((cs.take n).length == n) && (cs.take n).all Char.isDigit
      && matchItems ps (cs.drop n)

/-- Digits of a repetition count. -/
def charsToNat (cs : List Char) : Nat :=
  cs.foldl (fun acc c => acc * 10 + (c.toNat - '0'.toNat)) 0

/-- Parser for the body (between `^` and `$`) of the regexp fragment:
`\d{n}`, bare `\d`, and literal non-metacharacters. The fuel exceeds the
input length, so it never runs out on the patterns of `prepare`. -/
def parseRuleAux : Nat → List Char → Option (List RItem)
  | 0, _ => none
  | _ + 1, [] => some []
  | fuel + 1, '\\' :: 'd' :: '{' :: rest =>
    let ds := rest.takeWhile Char.isDigit
    (match rest.dropWhile Char.isDigit with
     | '}' :: rest2 =>
       if ds.isEmpty then none
       else (parseRuleAux fuel rest2).map (fun items => RItem.digits (charsToNat ds) :: items)
     | _ => none)
  | fuel + 1, '\\' :: 'd' :: rest =>
    (parseRuleAux fuel rest).map (fun items => RItem.digits 1 :: items)
  | fuel + 1, c :: rest =>
    if c = '\\' ∨ c = '^' ∨ c = '$' ∨ c = '{' ∨ c = '}' ∨ c = '.' ∨ c = '*'
        ∨ c = '+' ∨ c = '?' ∨ c = '[' ∨ c = ']' ∨ c = '(' ∨ c = ')' ∨ c = '|' then
      none
    else (parseRuleAux fuel rest).map (fun items => RItem.lit c :: items)

/-- Compilation of one of `prepare`'s `^...$` patterns into an item list,
standing in for `regexp.MustCompile`. -/
def parseRule (s : String) : Option (List RItem) :=
  match s.data with
  | '^' :: rest =>
    if rest.getLast? = some '$' then parseRuleAux (rest.length + 1) rest.dropLast
    else none
  | _ => none

/-- Whether the compiled filter of a rule accepts a string. -/
def filterAccepts (rule : String) (s : String) : Bool :=
  match parseRule rule with
  | some items => matchItems items s.data
  | none => false

/-- The item list of the minute pattern. -/
def minuteItems : List RItem :=
  [RItem.digits 4, RItem.lit '-', RItem.digits 2, RItem.lit '-', RItem.digits 2,
   RItem.lit '_', RItem.digits 2, RItem.lit '-', RItem.digits 2]

/-- The item list of the hour pattern. -/
def hourItems : List RItem := [RItem.digits 10]

/-- The item list of the day pattern. -/
def dayItems : List RItem :=
  [RItem.digits 4, RItem.lit '-', RItem.digits 2, RItem.lit '-', RItem.digits 2]

/-- A character list consisting of exactly `n` decimal digits (spec side). -/
def DigitStr (n : Nat) (cs : List Char) : Prop :=
  cs.length = n ∧ ∀ c ∈ cs, c.isDigit = true

/-- Spec-side shape for the minute filter: a 4-digit year, month and day,
then an underscore, then hour and minute, all two-digit and dash-separated. -/
def MinuteShape (s : String) : Prop :=
  ∃ y mo d h mi, DigitStr 4 y ∧ DigitStr 2 mo ∧ DigitStr 2 d ∧ DigitStr 2 h ∧
    DigitStr 2 mi ∧ s.data = y ++ '-' :: mo ++ '-' :: d ++ '_' :: h ++ '-' :: mi

/-- Spec-side shape for the hour filter: exactly ten digits. -/
def HourShape (s : String) : Prop :=
  s.data.length = 10 ∧ ∀ c ∈ s.data, c.isDigit = true

/-- Spec-side shape for the day filter: a 4-digit year, a 2-digit month and a
2-digit day, dash-separated. -/
def DayShape (s : String) : Prop :=
  ∃ y mo d, DigitStr 4 y ∧ DigitStr 2 mo ∧ DigitStr 2 d ∧
    s.data = y ++ '-' :: mo ++ '-' :: d

/-- Whether an event is part of a rotation (file reopen or descriptor
duplication). -/
def isRotationEffect : Event → Bool
  | Event.openCall _ _ _ => true
  | Event.dup2 _ => true
  | _ => false

/-- Whether an event is one the writer loop can emit: a file write, a
standard-error line, or the deferred file close. -/
def isLoopEvent : Event → Bool
  | Event.fileWrite _ => true
  | Event.fd2Line _ => true
  | Event.fileClose => true
  | _ => false

/-- Whether an event is a descriptor duplication. -/
def isDup2 : Event → Bool
  | Event.dup2 _ => true
  | _ => false

/-- Whether a `filepath.Abs` outcome is a failure. -/
def exceptFailed : Except String String → Bool
  | Except.error _ => true
  | Except.ok _ => false

/-- Whether, after the given event trace, file descriptor 2 still designates
the process's original standard error stream: it does until a `dup2`
targeting descriptor 2 appears, after which writes to `os.Stderr` land in
the log file. -/
def fd2IsOriginal (evts : List Event) : Bool :=
  !(evts.any (fun e =>
    match e with
    | Event.dup2 2 => true
    | _ => false))

/-- The full event trace of one sink activation followed by its writer loop:
the construction events, then the loop's events on the delivered messages
(`none` when construction failed and no loop was started). -/
def sinkRunEvents (env : Env) (fname whenUnit : String) (bc : Int)
    (writeErr : Nat → Option String) (msgs : List Msg) : Option (List Event) :=
  match NewPanicFileLogWriter env fname whenUnit bc with
  | (none, _) => none
  | (some w, cevts) => some (cevts ++ (runLoop writeErr w 0 msgs).2)

/-- Write oracle under which every file write succeeds. -/
def noWriteErr : Nat → Option String := fun _ => none

/-- Concrete environment: path resolution and open succeed, the target file's
modification time is `mt` (or the file does not exist), the clock reads
`now`, `LOGGER_MODE` is unset. -/
def envAt (mt : Option Int) (now : Int) : Env :=
  { absPath := fun p => Except.ok ("/abs/" ++ p)
    openErr := fun _ => none
    modTime := fun _ => mt
    now := now
    loggerMode := "" }

/-- Concrete environment in which path resolution fails. -/
def envAbsFail : Env :=
  { envAt none 0 with absPath := fun _ => Except.error "no cwd" }

/-- Concrete environment in which opening the file fails. -/
def envOpenFail : Env :=
  { envAt none 0 with openErr := fun _ => some "permission denied" }

/-- Concrete environment with `LOGGER_MODE=debug`. -/
def envDebug : Env :=
  { envAt none 0 with loggerMode := "debug" }

/-- A concrete text record with message `hello`. -/
def helloRec : LogRecord :=
  { created := 0, level := 1, source := "src", message := "hello", binary := none }

/-- A concrete record carrying a binary payload. -/
def binRec : LogRecord :=
  { created := 0, level := 1, source := "src", message := "", binary := some [10, 20, 30] }

/-- A concrete writer as produced by a successful hourly construction. -/
def sampleWriter : PanicFileLogWriter :=
  { filename := "log"
    baseFilename := "/abs/log"
    format := defaultFormat
    whenUnit := "H"
    backupCount := 3
    interval := 60 * 60
    suffix := "%Y%m%d%H"
    regRule := hourRegRule
    rolloverAt := 60 * 60
    firstRollover := true
    fileOpen := true }

/-- A concrete writer configured for minute rotation, before `prepare`. -/
def writerM : PanicFileLogWriter :=
  { sampleWriter with whenUnit := "M" }

/-- The empty item sequence accepts exactly the empty string. -/
theorem matchItems_nil_iff (cs : List Char) : matchItems [] cs = true ↔ cs = [] := by
  simp [matchItems]

/-- A literal item accepts exactly the strings starting with that character
whose tail the remaining items accept. -/
theorem matchItems_lit_iff (c : Char) (ps : List RItem) (cs : List Char) :
    matchItems (RItem.lit c :: ps) cs = true ↔
      ∃ rest, cs = c :: rest ∧ matchItems ps rest = true := by
  cases cs with
  | nil => simp [matchItems]
  | cons d cs =>
    simp only [matchItems, Bool.and_eq_true, beq_iff_eq]
    constructor
    · rintro ⟨rfl, h⟩
      exact ⟨cs, rfl, h⟩
    · rintro ⟨rest, heq, h⟩
      cases heq
      exact ⟨rfl, h⟩

/-- A digit-run item accepts exactly the strings splitting into `n` digits
followed by a remainder the remaining items accept. -/
theorem matchItems_digits_iff (n : Nat) (ps : List RItem) (cs : List Char) :
    matchItems (RItem.digits n :: ps) cs = true ↔
      ∃ d rest, DigitStr n d ∧ cs = d ++ rest ∧ matchItems ps rest = true := by
  constructor
  · intro h
    simp only [matchItems, Bool.and_eq_true, beq_iff_eq, List.all_eq_true] at h
    obtain ⟨⟨hlen, hall⟩, hrest⟩ := h
    exact ⟨cs.take n, cs.drop n, ⟨hlen, hall⟩, (List.take_append_drop n cs).symm, hrest⟩
  · rintro ⟨d, rest, ⟨hlen, hall⟩, rfl, hm⟩
    simp only [matchItems, Bool.and_eq_true, beq_iff_eq, List.all_eq_true]
    rw [List.take_left' hlen, List.drop_left' hlen]
    exact ⟨⟨hlen, hall⟩, hm⟩

/-- The compiled hour pattern accepts exactly the ten-digit strings. -/
theorem matchItems_hour_iff (s : String) :
    matchItems hourItems s.data = true ↔ HourShape s := by
  unfold hourItems HourShape
  rw [matchItems_digits_iff]
  constructor
  · rintro ⟨d, rest, ⟨hlen, hall⟩, hs, hrest⟩
    rw [matchItems_nil_iff] at hrest
    subst hrest
    rw [hs]
    simp only [List.append_nil]
    exact ⟨hlen, hall⟩
  · rintro ⟨hlen, hall⟩
    refine ⟨s.data, [], ⟨hlen, hall⟩, by simp, ?_⟩
    rw [matchItems_nil_iff]

/-- The compiled day pattern accepts exactly the `YYYY-MM-DD`-shaped
strings. -/
theorem matchItems_day_iff (s : String) :
    matchItems dayItems s.data = true ↔ DayShape s := by
  unfold dayItems DayShape
  simp only [matchItems_digits_iff, matchItems_lit_iff, matchItems_nil_iff]
  constructor
  · rintro ⟨y, r1, hy, hs, r2, rfl, mo, r3, hmo, rfl, r4, rfl, d, r5, hd, rfl, rfl⟩
    exact ⟨y, mo, d, hy, hmo, hd, by simpa using hs⟩
  · rintro ⟨y, mo, d, hy, hmo, hd, hs⟩
    exact ⟨y, '-' :: (mo ++ '-' :: d), hy, by simpa using hs,
      mo ++ '-' :: d, rfl, mo, '-' :: d, hmo, rfl, d, rfl, d, [], hd, by simp, rfl⟩

/-- The compiled minute pattern accepts exactly the `YYYY-MM-DD_HH-MM`-shaped
strings. -/
theorem matchItems_minute_iff (s : String) :
    matchItems minuteItems s.data = true ↔ MinuteShape s := by
  unfold minuteItems MinuteShape
  simp only [matchItems_digits_iff, matchItems_lit_iff, matchItems_nil_iff]
  constructor
  · rintro ⟨y, r1, hy, hs, r2, rfl, mo, r3, hmo, rfl, r4, rfl, d, r5, hd, rfl,
      r6, rfl, h, r7, hh, rfl, r8, rfl, mi, r9, hmi, rfl, rfl⟩
    exact ⟨y, mo, d, h, mi, hy, hmo, hd, hh, hmi, by simpa using hs⟩
  · rintro ⟨y, mo, d, h, mi, hy, hmo, hd, hh, hmi, hs⟩
    refine ⟨y, '-' :: (mo ++ '-' :: (d ++ '_' :: (h ++ '-' :: mi))), hy,
      by simpa using hs, mo ++ '-' :: (d ++ '_' :: (h ++ '-' :: mi)), rfl,
      mo, '-' :: (d ++ '_' :: (h ++ '-' :: mi)), hmo, rfl,
      d ++ '_' :: (h ++ '-' :: mi), rfl,
      d, '_' :: (h ++ '-' :: mi), hd, rfl,
      h ++ '-' :: mi, rfl,
      h, '-' :: mi, hh, rfl,
      mi, rfl, mi, [], hmi, by simp, rfl⟩

/-- The minute pattern compiles to its item list. -/
theorem parseRule_minute : parseRule minuteRegRule = some minuteItems := rfl

/-- The hour pattern compiles to its item list. -/
theorem parseRule_hour : parseRule hourRegRule = some hourItems := rfl

/-- The day pattern compiles to its item list. -/
theorem parseRule_day : parseRule dayRegRule = some dayItems := rfl

/-- Claim C1: for every rotation unit string, interpreted case-insensitively
(the constructor upper-cases before `prepare` switches), the derived policy
matches the table: `minute` ("M") gives interval 60, the
year-month-day_hour-minute suffix and a filter accepting exactly that shape;
`hour` ("H") gives interval 3600, a 10-digit timestamp suffix and a filter
accepting exactly ten digits; `day`, `midnight` and every other unit give
interval 86400, the year-month-day suffix and a filter accepting exactly that
shape. `derivePolicy` is a pure function, so the computation is deterministic
and effect-free. -/
theorem c1_rotation_policy_table :
    (∀ u : String,
        derivePolicy u =
          if strToUpper u = "M" then
            { interval := 60, suffix := "%Y-%m-%d_%H-%M", regRule := minuteRegRule }
          else if strToUpper u = "H" then
            { interval := 3600, suffix := "%Y%m%d%H", regRule := hourRegRule }
          else
            { interval := 86400, suffix := "%Y-%m-%d", regRule := dayRegRule })
    ∧ (∀ s, filterAccepts minuteRegRule s = true ↔ MinuteShape s)
    ∧ (∀ s, filterAccepts hourRegRule s = true ↔ HourShape s)
    ∧ (∀ s, filterAccepts dayRegRule s = true ↔ DayShape s) := by
  refine ⟨fun u => ?_, fun s => ?_, fun s => ?_, fun s => ?_⟩
  · unfold derivePolicy preparePolicy
    by_cases h1 : strToUpper u = "M" <;> by_cases h2 : strToUpper u = "H" <;>
      simp [h1, h2]
  · rw [show filterAccepts minuteRegRule s = matchItems minuteItems s.data by
      unfold filterAccepts; rw [parseRule_minute]]
    exact matchItems_minute_iff s
  · rw [show filterAccepts hourRegRule s = matchItems hourItems s.data by
      unfold filterAccepts; rw [parseRule_hour]]
    exact matchItems_hour_iff s
  · rw [show filterAccepts dayRegRule s = matchItems dayItems s.data by
      unfold filterAccepts; rw [parseRule_day]]
    exact matchItems_day_iff s

/-- Claim C2 counterexample: with a minute unit and an existing target file
whose modification time is 30 seconds before the epoch (T = -30, I = 60),
the code computes a deadline of 60 (Go's division truncates toward zero),
whereas `(floor(T/I) + 1) * I = 0`, and 0 is itself a multiple of 60 strictly
greater than -30 and smaller than 60 — so the computed deadline is neither
the floor-based value nor the smallest such multiple. -/
theorem c2_counterexample :
    ((NewPanicFileLogWriter (envAt (some (-30)) 0) "log" "M" 0).1.map
        (fun w => w.rolloverAt)) = some 60
    ∧ (Int.fdiv (-30) 60 + 1) * 60 = 0
    ∧ (60 : Int) ∣ 0 ∧ (-30 : Int) < 0 ∧ (0 : Int) < 60 := by
  refine ⟨by decide, by decide, ⟨0, by decide⟩, by decide, by decide⟩

/-- Claim C2 (amended): the initial deadline is
`(trunc(T/I) + 1) * I` with T the file's modification time when the file
exists and the current time otherwise; for every non-negative reference time
T (at or after the Unix epoch) this agrees with `(floor(T/I) + 1) * I` and is
the smallest multiple of I strictly greater than T, hence in the future and
aligned to interval boundaries. -/
theorem c2_initial_deadline :
    (∀ (env : Env) (w : PanicFileLogWriter),
        (prepare env w).rolloverAt =
          (Int.tdiv (referenceTime env w) (preparePolicy w.whenUnit).interval + 1)
            * (preparePolicy w.whenUnit).interval)
    ∧ (∀ t i : Int, 0 ≤ t → 0 < i →
        (Int.tdiv t i + 1) * i = (Int.fdiv t i + 1) * i
        ∧ t < (Int.tdiv t i + 1) * i
        ∧ i ∣ (Int.tdiv t i + 1) * i
        ∧ ∀ m : Int, i ∣ m → t < m → (Int.tdiv t i + 1) * i ≤ m) := by
  constructor
  · intro env w
    rfl
  · intro t i ht hi
    have htd : Int.tdiv t i = t / i := Int.tdiv_eq_ediv ht (le_of_lt hi)
    have hfd : Int.fdiv t i = t / i := Int.fdiv_eq_ediv t (le_of_lt hi)
    refine ⟨by rw [htd, hfd], ?_, ?_, ?_⟩
    · rw [htd]
      exact Int.lt_ediv_add_one_mul_self t hi
    · exact dvd_mul_left i (Int.tdiv t i + 1)
    · intro m hm hlt
      rw [htd]
      obtain ⟨k, rfl⟩ := hm
      have hk : t / i < k := by
        rw [Int.ediv_lt_iff_lt_mul hi]
        calc t < i * k := hlt
          _ = k * i := mul_comm i k
      have hk1 : t / i + 1 ≤ k := hk
      calc (t / i + 1) * i ≤ k * i := mul_le_mul_of_nonneg_right hk1 (le_of_lt hi)
        _ = i * k := mul_comm k i

/-- Claim C2 witness: the amended theorem at T = 130, I = 60 (unit `M`,
existing file with modification time 130): the deadline is 180, the floor
and truncating formulas agree, and 180 is a future multiple of 60. -/
theorem c2_initial_deadline_witness :
    (prepare (envAt (some 130) 999) writerM).rolloverAt = 180
    ∧ (0 : Int) ≤ 130 ∧ (0 : Int) < 60
    ∧ (Int.tdiv 130 60 + 1) * 60 = (Int.fdiv 130 60 + 1) * 60
    ∧ (130 : Int) < (Int.tdiv 130 60 + 1) * 60 := by
  have h := (c2_initial_deadline.2 130 60 (by decide) (by decide))
  exact ⟨by decide, by decide, by decide, h.1, h.2.1⟩

/-- The writer loop never mutates the writer state. -/
theorem runLoop_state_const (writeErr : Nat → Option String) (w : PanicFileLogWriter)
    (k : Nat) (msgs : List Msg) : (runLoop writeErr w k msgs).1 = w := by
  induction msgs generalizing k with
  | nil => rfl
  | cons m rest ih =>
    cases m with
    | endSignal => rfl
    | record r =>
      rw [runLoop]
      cases writeErr k with
      | none => exact ih (k + 1)
      | some e => rfl

/-- The deferred close emits only loop events. -/
theorem deferClose_loopOnly (w : PanicFileLogWriter) :
    (deferClose w).all isLoopEvent = true := by
  unfold deferClose
  by_cases h : w.fileOpen <;> simp [h, isLoopEvent]

/-- Every event the writer loop emits is a file write, a standard-error line
or the deferred file close. -/
theorem runLoop_events_loopOnly (writeErr : Nat → Option String)
    (w : PanicFileLogWriter) (k : Nat) (msgs : List Msg) :
    (runLoop writeErr w k msgs).2.all isLoopEvent = true := by
  induction msgs generalizing k with
  | nil => exact deferClose_loopOnly w
  | cons m rest ih =>
    cases m with
    | endSignal => exact deferClose_loopOnly w
    | record r =>
      rw [runLoop]
      cases writeErr k with
      | none =>
        simp only [List.all_cons, Bool.and_eq_true]
        exact ⟨rfl, ih (k + 1)⟩
      | some e =>
        simp only [List.all_cons, Bool.and_eq_true]
        exact ⟨rfl, deferClose_loopOnly w⟩

/-- When every write succeeds, a block of ordinary records at the head of the
queue is written chunk by chunk, in queue order, before the rest is
processed. -/
theorem runLoop_records (w : PanicFileLogWriter) (k : Nat)
    (recs : List LogRecord) (rest : List Msg) :
    runLoop noWriteErr w k (recs.map Msg.record ++ rest)
      = ((runLoop noWriteErr w (k + recs.length) rest).1,
         recs.map (fun r => Event.fileWrite (writeChunk w.format r))
           ++ (runLoop noWriteErr w (k + recs.length) rest).2) := by
  induction recs generalizing k with
  | nil => simp
  | cons r rs ih =>
    simp only [List.map_cons, List.cons_append, List.length_cons]
    rw [runLoop]
    show (match noWriteErr k with
      | none =>
        let res := runLoop noWriteErr w (k + 1) (rs.map Msg.record ++ rest)
        (res.1, Event.fileWrite (writeChunk w.format r) :: res.2)
      | some e =>
        (w, Event.fd2Line (fileLogWriterTag w.filename e) :: deferClose w)) = _
    rw [show noWriteErr k = none from rfl]
    simp only [ih (k + 1)]
    have harith : k + 1 + rs.length = k + (rs.length + 1) := by omega
    rw [harith]

/-- Claim C3 (refuted — code bug): the writer loop never consults the clock
or `rolloverAt`: for every delivered queue the writer state (in particular
`rolloverAt`) is returned unchanged and no rotation effect (file reopen or
descriptor duplication) is ever emitted, so after a record processed at a
time at or past the deadline the deadline is still not in the future,
contrary to the claim that the loop rotates and advances it. -/
theorem c3_loop_never_rotates (writeErr : Nat → Option String)
    (w : PanicFileLogWriter) (k : Nat) (msgs : List Msg) :
    (runLoop writeErr w k msgs).1.rolloverAt = w.rolloverAt
    ∧ (runLoop writeErr w k msgs).2.all (fun e => !isRotationEffect e) = true := by
  constructor
  · rw [runLoop_state_const]
  · have h := runLoop_events_loopOnly writeErr w k msgs
    rw [List.all_eq_true] at h ⊢
    intro e he
    have h2 := h e he
    cases e <;> simp_all [isLoopEvent, isRotationEffect]

/-- Claim C4 (LogCloser drain modelled from the spec): closing delivers the
drain sentinel through the same ordered queue, so the loop writes every
record enqueued before the close, in order, then stops at the sentinel and
closes the file handle exactly once; messages submitted after the close
request produce no file writes at all. -/
theorem c4_close_drains (recs : List LogRecord) (post : List Msg)
    (w : PanicFileLogWriter) (k : Nat) (hopen : w.fileOpen = true) :
    (runLoop noWriteErr w k (Close (recs.map Msg.record) ++ post)).2
      = recs.map (fun r => Event.fileWrite (writeChunk w.format r))
        ++ [Event.fileClose] := by
  unfold Close
  rw [List.append_assoc, List.singleton_append, runLoop_records]
  rw [show runLoop noWriteErr w (k + recs.length) (Msg.endSignal :: post)
      = (w, deferClose w) from rfl]
  unfold deferClose
  rw [hopen]
  simp

/-- Claim C4 witness: a concrete drain — one record before the close, one
submission after it — writes exactly the record's chunk, then closes the
file once. -/
theorem c4_close_drains_witness :
    sampleWriter.fileOpen = true
    ∧ (runLoop noWriteErr sampleWriter 0
        (Close [Msg.record helloRec] ++ [Msg.record binRec])).2
      = [Event.fileWrite (writeChunk sampleWriter.format helloRec), Event.fileClose] := by
  refine ⟨rfl, ?_⟩
  have h := c4_close_drains [helloRec] [Msg.record binRec] sampleWriter 0 rfl
  simpa using h

/-- Claim C5: `LogWrite` returns no error in either mode. In blocking mode
every record is enqueued (for any single submission and for any burst folded
over the queue); in non-blocking mode a submission finding the queue at (or
beyond) its capacity is dropped — the queue is returned unchanged — while a
submission finding space is enqueued. -/
theorem c5_logwrite_modes :
    (∀ (cap : Nat) (q : List Msg) (r : LogRecord),
        LogWrite true cap q r = q ++ [Msg.record r])
    ∧ (∀ (cap : Nat) (q : List Msg) (burst : List LogRecord),
        burst.foldl (fun acc r => LogWrite true cap acc r) q
          = q ++ burst.map Msg.record)
    ∧ (∀ (cap : Nat) (q : List Msg) (r : LogRecord),
        cap ≤ q.length → LogWrite false cap q r = q)
    ∧ (∀ (cap : Nat) (q : List Msg) (r : LogRecord),
        q.length < cap → LogWrite false cap q r = q ++ [Msg.record r]) := by
  refine ⟨fun cap q r => ?_, fun cap q burst => ?_, fun cap q r h => ?_,
    fun cap q r h => ?_⟩
  · simp [LogWrite]
  · induction burst generalizing q with
    | nil => simp
    | cons b bs ih =>
      simp only [List.foldl_cons, List.map_cons]
      rw [show LogWrite true cap q b = q ++ [Msg.record b] by simp [LogWrite]]
      rw [ih (q ++ [Msg.record b])]
      simp
  · simp [LogWrite, h]
  · simp [LogWrite, Nat.not_le.mpr h]

/-- Claim C5 witness: with capacity 2 and a queue already holding two
records, a blocking submission is enqueued while a non-blocking one is
dropped; with one free slot the non-blocking submission is enqueued. -/
theorem c5_logwrite_modes_witness :
    LogWrite true 2 [Msg.record helloRec, Msg.record binRec] helloRec
      = [Msg.record helloRec, Msg.record binRec, Msg.record helloRec]
    ∧ 2 ≤ ([Msg.record helloRec, Msg.record binRec] : List Msg).length
    ∧ LogWrite false 2 [Msg.record helloRec, Msg.record binRec] helloRec
      = [Msg.record helloRec, Msg.record binRec]
    ∧ ([Msg.record helloRec] : List Msg).length < 2
    ∧ LogWrite false 2 [Msg.record helloRec] binRec
      = [Msg.record helloRec, Msg.record binRec] := by
  refine ⟨?_, by decide, ?_, by decide, ?_⟩
  · simpa using c5_logwrite_modes.1 2 [Msg.record helloRec, Msg.record binRec] helloRec
  · exact c5_logwrite_modes.2.2.1 2 [Msg.record helloRec, Msg.record binRec] helloRec
      (by decide)
  · simpa using c5_logwrite_modes.2.2.2 2 [Msg.record helloRec] binRec (by decide)

/-- Claim C6: records delivered in sequence to one writer are written to the
file in exactly that order — the event trace is the map of the record list,
chunk for chunk, with nothing reordered, duplicated or interleaved, followed
only by the deferred close. -/
theorem c6_fifo_order (recs : List LogRecord) (w : PanicFileLogWriter) (k : Nat) :
    (runLoop noWriteErr w k (recs.map Msg.record)).2
      = recs.map (fun r => Event.fileWrite (writeChunk w.format r))
        ++ deferClose w := by
  have h := runLoop_records w k recs []
  rw [List.append_nil] at h
  rw [h, show runLoop noWriteErr w (k + recs.length) [] = (w, deferClose w) from rfl]

/-- Claim C7 counterexample: in a default (non-debug) activation the
construction trace ends with `Dup2(fd, 2)`, and the loop's write-failure
line is emitted after it, so the `os.Stderr` print at paniclog.go:177 is a
write to a descriptor that by then aliases the log file — at this concrete
input the error line does not reach the process's original standard error
stream, refuting the claim's destination conjunct. -/
theorem c7_counterexample :
    sinkRunEvents (envAt none 0) "log" "H" 3 (fun _ => some "disk full")
        [Msg.record helloRec]
      = some [Event.openCall "log" openFlags 0o644, Event.dup2 1, Event.dup2 2,
              Event.fd2Line (fileLogWriterTag "log" "disk full"), Event.fileClose]
    ∧ fd2IsOriginal
        [Event.openCall "log" openFlags 0o644, Event.dup2 1, Event.dup2 2] = false := by
  refine ⟨?_, by decide⟩
  rfl

/-- Claim C7 (amended): a record with a binary payload is written as its raw
bytes verbatim; a record without one is rendered through the configured
format template (the concrete record with message `hello` and format `%M`
renders to exactly `hello`); a failed write prints the error, tagged with
the file name, via the process's standard-error descriptor (fd 2) and
terminates the loop — no retry, no further record processed, only the
deferred close. The destination of that line is decided at activation: a
successful non-debug activation has already duplicated the log file's
descriptor onto fd 2, so the line lands in the log file rather than the
process's original standard error stream; only in debug mode does fd 2
still designate the original stream; and the loop itself never changes the
binding. -/
theorem c7_write_rendering :
    (∀ (fmt : String) (r : LogRecord) (bs : List Nat),
        r.binary = some bs → writeChunk fmt r = Chunk.bytes bs)
    ∧ (∀ (fmt : String) (r : LogRecord),
        r.binary = none → writeChunk fmt r = Chunk.text (formatLogRecord fmt r))
    ∧ formatLogRecord "%M" helloRec = "hello"
    ∧ (∀ (writeErr : Nat → Option String) (w : PanicFileLogWriter) (k : Nat)
        (r : LogRecord) (rest : List Msg) (e : String),
        writeErr k = some e →
        (runLoop writeErr w k (Msg.record r :: rest)).2
          = Event.fd2Line (fileLogWriterTag w.filename e) :: deferClose w)
    ∧ (∀ (env : Env) (fname whenUnit : String) (bc : Int),
        env.loggerMode ≠ "debug" →
        (NewPanicFileLogWriter env fname whenUnit bc).1.isSome = true →
        fd2IsOriginal (NewPanicFileLogWriter env fname whenUnit bc).2 = false)
    ∧ (∀ (env : Env) (fname whenUnit : String) (bc : Int),
        env.loggerMode = "debug" →
        fd2IsOriginal (NewPanicFileLogWriter env fname whenUnit bc).2 = true)
    ∧ (∀ (writeErr : Nat → Option String) (w : PanicFileLogWriter) (k : Nat)
        (msgs : List Msg) (t : Nat),
        Event.dup2 t ∉ (runLoop writeErr w k msgs).2) := by
  refine ⟨fun fmt r bs h => ?_, fun fmt r h => ?_, rfl,
    fun writeErr w k r rest e h => ?_,
    fun env fname whenUnit bc hdbg hok => ?_,
    fun env fname whenUnit bc hdbg => ?_,
    fun writeErr w k msgs t hmem => ?_⟩
  · simp [writeChunk, h]
  · simp [writeChunk, h]
  · simp only [runLoop, h]
  · unfold NewPanicFileLogWriter runConstruct at hok ⊢
    cases habs : env.absPath fname with
    | error e => simp [habs] at hok
    | ok path =>
      cases hopen : env.openErr fname with
      | some e => simp [habs, hopen, intRotate, prepare] at hok
      | none => simp [habs, hopen, intRotate, prepare, hdbg, fd2IsOriginal]
  · unfold NewPanicFileLogWriter runConstruct
    cases habs : env.absPath fname with
    | error e => simp [habs, fd2IsOriginal]
    | ok path =>
      cases hopen : env.openErr fname with
      | some e => simp [habs, hopen, intRotate, prepare, fd2IsOriginal]
      | none => simp [habs, hopen, intRotate, prepare, hdbg, fd2IsOriginal]
  · have h := runLoop_events_loopOnly writeErr w k msgs
    rw [List.all_eq_true] at h
    have h2 := h _ hmem
    simp [isLoopEvent] at h2

/-- Claim C7 witness: the binary record is written verbatim, the `hello`
record renders through `%M` to `hello`, a failing write oracle stops the
loop with the tagged fd-2 line before the second queued record, the default
hourly activation leaves fd 2 aliased to the log file while the debug
activation leaves it original, and the loop never emits a `dup2`. -/
theorem c7_write_rendering_witness :
    binRec.binary = some [10, 20, 30]
    ∧ writeChunk "%M" binRec = Chunk.bytes [10, 20, 30]
    ∧ helloRec.binary = none
    ∧ writeChunk "%M" helloRec = Chunk.text "hello"
    ∧ (fun _ : Nat => some "disk full") 0 = some "disk full"
    ∧ (runLoop (fun _ => some "disk full") sampleWriter 0
        [Msg.record helloRec, Msg.record binRec]).2
      = [Event.fd2Line (fileLogWriterTag "log" "disk full"), Event.fileClose]
    ∧ (envAt none 0).loggerMode ≠ "debug"
    ∧ (NewPanicFileLogWriter (envAt none 0) "log" "H" 3).1.isSome = true
    ∧ fd2IsOriginal (NewPanicFileLogWriter (envAt none 0) "log" "H" 3).2 = false
    ∧ envDebug.loggerMode = "debug"
    ∧ fd2IsOriginal (NewPanicFileLogWriter envDebug "log" "H" 3).2 = true
    ∧ Event.dup2 2 ∉ (runLoop noWriteErr sampleWriter 0 [Msg.record helloRec]).2 := by
  refine ⟨rfl, c7_write_rendering.1 "%M" binRec [10, 20, 30] rfl, rfl, ?_, rfl, ?_,
    by decide, by decide,
    c7_write_rendering.2.2.2.2.1 (envAt none 0) "log" "H" 3 (by decide) (by decide),
    rfl, c7_write_rendering.2.2.2.2.2.1 envDebug "log" "H" 3 rfl,
    c7_write_rendering.2.2.2.2.2.2 noWriteErr sampleWriter 0 [Msg.record helloRec] 2⟩
  · rw [c7_write_rendering.2.1 "%M" helloRec rfl, c7_write_rendering.2.2.1]
  · rw [c7_write_rendering.2.2.2.1 (fun _ => some "disk full") sampleWriter 0
      helloRec [Msg.record binRec] "disk full" rfl]
    rfl

/-- Claim C8: when the sink opens its file at activation, unless the
environment selects debug mode, it duplicates its descriptor onto standard
output (1) and standard error (2) exactly once each; in debug mode neither
descriptor is touched; and the per-record writer loop never redirects. -/
theorem c8_descriptor_redirection :
    (∀ (env : Env) (fname whenUnit : String) (bc : Int),
        env.loggerMode = "debug" →
        ((NewPanicFileLogWriter env fname whenUnit bc).2.filter isDup2) = [])
    ∧ (∀ (env : Env) (fname whenUnit : String) (bc : Int),
        env.loggerMode ≠ "debug" →
        (NewPanicFileLogWriter env fname whenUnit bc).1.isSome = true →
        ((NewPanicFileLogWriter env fname whenUnit bc).2.filter isDup2)
          = [Event.dup2 1, Event.dup2 2])
    ∧ (∀ (writeErr : Nat → Option String) (w : PanicFileLogWriter) (k : Nat)
        (msgs : List Msg),
        ((runLoop writeErr w k msgs).2.filter isDup2) = []) := by
  refine ⟨fun env fname whenUnit bc hdbg => ?_, fun env fname whenUnit bc hdbg hok => ?_,
    fun writeErr w k msgs => ?_⟩
  · unfold NewPanicFileLogWriter runConstruct
    cases habs : env.absPath fname with
    | error e => simp [habs, isDup2]
    | ok path =>
      cases hopen : env.openErr fname with
      | some e => simp [habs, hopen, intRotate, prepare, isDup2]
      | none => simp [habs, hopen, intRotate, prepare, hdbg, isDup2]
  · unfold NewPanicFileLogWriter runConstruct at hok ⊢
    cases habs : env.absPath fname with
    | error e => simp [habs] at hok
    | ok path =>
      cases hopen : env.openErr fname with
      | some e => simp [habs, hopen, intRotate, prepare] at hok
      | none => simp [habs, hopen, intRotate, prepare, hdbg, isDup2]
  · rw [List.filter_eq_nil_iff]
    intro e he
    have h := runLoop_events_loopOnly writeErr w k msgs
    rw [List.all_eq_true] at h
    have h2 := h e he
    cases e <;> simp_all [isLoopEvent, isDup2]

/-- Claim C8 witness: in the debug environment no descriptor duplication
occurs; in the default environment construction succeeds and duplicates onto
descriptors 1 and 2 exactly once. -/
theorem c8_descriptor_redirection_witness :
    envDebug.loggerMode = "debug"
    ∧ ((NewPanicFileLogWriter envDebug "log" "H" 3).2.filter isDup2) = []
    ∧ (envAt none 0).loggerMode ≠ "debug"
    ∧ (NewPanicFileLogWriter (envAt none 0) "log" "H" 3).1.isSome = true
    ∧ ((NewPanicFileLogWriter (envAt none 0) "log" "H" 3).2.filter isDup2)
      = [Event.dup2 1, Event.dup2 2]
    ∧ ((runLoop noWriteErr sampleWriter 0 [Msg.record helloRec]).2.filter isDup2)
      = [] := by
  refine ⟨rfl, c8_descriptor_redirection.1 envDebug "log" "H" 3 rfl, by decide, by decide,
    c8_descriptor_redirection.2.1 (envAt none 0) "log" "H" 3 (by decide) (by decide),
    c8_descriptor_redirection.2.2 noWriteErr sampleWriter 0 [Msg.record helloRec]⟩

/-- Claim C9: construction yields no usable sink exactly when the path
cannot be made absolute or the target file cannot be opened; on a path
failure, and likewise on an open failure after a successful path resolution,
the error tagged with the configured file name is printed to standard error
— and on both failure paths no `dup2` onto descriptor 2 has happened yet, so
the line genuinely reaches the process's standard error stream; and every
file open performed during construction targets the configured path with
flags `O_WRONLY|O_APPEND|O_CREATE` and mode `0644` (`rw-r--r--`). -/
theorem c9_construction_failure :
    (∀ (env : Env) (fname whenUnit : String) (bc : Int),
        (NewPanicFileLogWriter env fname whenUnit bc).1 = none
          ↔ (exceptFailed (env.absPath fname) = true
             ∨ (env.openErr fname).isSome = true))
    ∧ (∀ (env : Env) (fname whenUnit : String) (bc : Int) (e : String),
        env.absPath fname = Except.error e →
        Event.fd2Line (fileLogWriterTag fname e)
          ∈ (NewPanicFileLogWriter env fname whenUnit bc).2
        ∧ fd2IsOriginal (NewPanicFileLogWriter env fname whenUnit bc).2 = true)
    ∧ (∀ (env : Env) (fname whenUnit : String) (bc : Int) (e : String),
        exceptFailed (env.absPath fname) = false →
        env.openErr fname = some e →
        Event.fd2Line (fileLogWriterTag fname e)
          ∈ (NewPanicFileLogWriter env fname whenUnit bc).2
        ∧ fd2IsOriginal (NewPanicFileLogWriter env fname whenUnit bc).2 = true)
    ∧ (∀ (env : Env) (fname whenUnit : String) (bc : Int) (p : String)
        (fl : List String) (m : Nat),
        Event.openCall p fl m ∈ (NewPanicFileLogWriter env fname whenUnit bc).2 →
        p = fname ∧ fl = openFlags ∧ m = 0o644) := by
  refine ⟨fun env fname whenUnit bc => ?_, fun env fname whenUnit bc e habs => ?_,
    fun env fname whenUnit bc e habs hopen => ?_,
    fun env fname whenUnit bc p fl m hmem => ?_⟩
  · unfold NewPanicFileLogWriter runConstruct
    cases habs : env.absPath fname with
    | error e => simp [habs, exceptFailed]
    | ok path =>
      cases hopen : env.openErr fname with
      | some e => simp [habs, hopen, intRotate, prepare, exceptFailed]
      | none => simp [habs, hopen, intRotate, prepare, exceptFailed]
  · unfold NewPanicFileLogWriter runConstruct
    simp [habs, fd2IsOriginal]
  · unfold NewPanicFileLogWriter runConstruct
    cases habs2 : env.absPath fname with
    | error e2 => rw [habs2] at habs; simp [exceptFailed] at habs
    | ok path => simp [habs2, hopen, intRotate, prepare, fd2IsOriginal]
  · unfold NewPanicFileLogWriter runConstruct at hmem
    cases habs : env.absPath fname with
    | error e =>
      rw [habs] at hmem
      simp at hmem
    | ok path =>
      rw [habs] at hmem
      cases hopen : env.openErr fname with
      | some e =>
        simp [intRotate, prepare, hopen] at hmem
        exact ⟨hmem.1, hmem.2.1, hmem.2.2⟩
      | none =>
        by_cases hdbg : env.loggerMode = "debug" <;>
          simp [intRotate, prepare, hopen, hdbg, isDup2] at hmem <;>
          exact ⟨hmem.1, hmem.2.1, hmem.2.2⟩

/-- Claim C9 witness: path-resolution failure and open failure each yield no
sink and print the tagged error; and in a successful construction the single
open call uses the configured path, the append/create flag set and mode
`0644`. -/
theorem c9_construction_failure_witness :
    ((NewPanicFileLogWriter envAbsFail "log" "H" 3).1 = none
      ↔ (exceptFailed (envAbsFail.absPath "log") = true
         ∨ (envAbsFail.openErr "log").isSome = true))
    ∧ (Event.fd2Line (fileLogWriterTag "log" "no cwd")
        ∈ (NewPanicFileLogWriter envAbsFail "log" "H" 3).2
       ∧ fd2IsOriginal (NewPanicFileLogWriter envAbsFail "log" "H" 3).2 = true)
    ∧ (Event.fd2Line (fileLogWriterTag "log" "permission denied")
        ∈ (NewPanicFileLogWriter envOpenFail "log" "H" 3).2
       ∧ fd2IsOriginal (NewPanicFileLogWriter envOpenFail "log" "H" 3).2 = true)
    ∧ ("log" = "log" ∧ openFlags = openFlags ∧ (420 : Nat) = 0o644) := by
  refine ⟨c9_construction_failure.1 envAbsFail "log" "H" 3,
    c9_construction_failure.2.1 envAbsFail "log" "H" 3 "no cwd" rfl,
    c9_construction_failure.2.2.1 envOpenFail "log" "H" 3 "permission denied"
      (by decide) rfl,
    c9_construction_failure.2.2.2 (envAt none 0) "log" "H" 3 "log" openFlags 420
      (by decide)⟩

/-- Claim C10: a successfully constructed sink carries the default template
`[%D %T] [%L] (%S) %M`, so a non-binary record is rendered with it whenever
`SetFormat` was never called; `SetFormat` replaces exactly the format field,
leaving every other field of the writer unchanged, and returns the updated
writer itself. -/
theorem c10_setformat_frame :
    (∀ (env : Env) (fname whenUnit : String) (bc : Int) (w : PanicFileLogWriter),
        (NewPanicFileLogWriter env fname whenUnit bc).1 = some w →
        w.format = "[%D %T] [%L] (%S) %M")
    ∧ (∀ (w : PanicFileLogWriter) (r : LogRecord), r.binary = none →
        writeChunk w.format r = Chunk.text (formatLogRecord w.format r))
    ∧ (∀ (w : PanicFileLogWriter) (f : String),
        SetFormat w f = { w with format := f })
    ∧ (∀ (w : PanicFileLogWriter) (f : String),
        (SetFormat w f).format = f
        ∧ (SetFormat w f).filename = w.filename
        ∧ (SetFormat w f).baseFilename = w.baseFilename
        ∧ (SetFormat w f).whenUnit = w.whenUnit
        ∧ (SetFormat w f).backupCount = w.backupCount
        ∧ (SetFormat w f).interval = w.interval
        ∧ (SetFormat w f).suffix = w.suffix
        ∧ (SetFormat w f).regRule = w.regRule
        ∧ (SetFormat w f).rolloverAt = w.rolloverAt
        ∧ (SetFormat w f).firstRollover = w.firstRollover
        ∧ (SetFormat w f).fileOpen = w.fileOpen) := by
  refine ⟨fun env fname whenUnit bc w h => ?_, fun w r h => ?_, fun w f => rfl,
    fun w f => ⟨rfl, rfl, rfl, rfl, rfl, rfl, rfl, rfl, rfl, rfl, rfl⟩⟩
  · unfold NewPanicFileLogWriter runConstruct at h
    cases habs : env.absPath fname with
    | error e => rw [habs] at h; simp at h
    | ok path =>
      rw [habs] at h
      cases hopen : env.openErr fname with
      | some e =>
        simp [intRotate, prepare, hopen] at h
      | none =>
        simp [intRotate, prepare, hopen] at h
        subst h
        rfl
  · simp [writeChunk, h]

/-- Claim C10 witness: the concrete hourly construction yields the default
template, the `hello` record renders through it as text, and `SetFormat`
applied to the sample writer changes the format and nothing else. -/
theorem c10_setformat_frame_witness :
    (∃ w, (NewPanicFileLogWriter (envAt none 0) "log" "H" 3).1 = some w
      ∧ w.format = "[%D %T] [%L] (%S) %M")
    ∧ helloRec.binary = none
    ∧ writeChunk sampleWriter.format helloRec
      = Chunk.text (formatLogRecord sampleWriter.format helloRec)
    ∧ SetFormat sampleWriter "%M" = { sampleWriter with format := "%M" }
    ∧ (SetFormat sampleWriter "%M").filename = sampleWriter.filename
    ∧ (SetFormat sampleWriter "%M").rolloverAt = sampleWriter.rolloverAt := by
  have hs : (NewPanicFileLogWriter (envAt none 0) "log" "H" 3).1.isSome = true := by
    decide
  obtain ⟨w, hw⟩ := Option.isSome_iff_exists.mp hs
  exact ⟨⟨w, hw, c10_setformat_frame.1 (envAt none 0) "log" "H" 3 w hw⟩, rfl,
    c10_setformat_frame.2.1 sampleWriter helloRec rfl,
    c10_setformat_frame.2.2.1 sampleWriter "%M",
    (c10_setformat_frame.2.2.2 sampleWriter "%M").2.1,
    (c10_setformat_frame.2.2.2 sampleWriter "%M").2.2.2.2.2.2.2.2.1⟩

end Log4go
